import Mathlib

/-!
Shallow embedding of the interval-computation core of the f1-dashboard
repository (`src/data_processor.py`): the `IntervalCalculator` class
(lap-data store, interval history, current-interval snapshot, average lap
time, event detection) and the `RaceAnalyzer` static functions.

Timestamps (`date_start`) are modelled as rationals (seconds).  The pandas
DataFrame `lap_data` is modelled as an ordered list of rows;
`drop_duplicates(keep='last')` keeps, for each key, the last occurrence at
its original position; `pd.merge(..., on='lap_number')` (inner join)
preserves the order of the left keys; `sort_values` sorts ascending;
`Series.idxmax` returns the first occurrence of the maximum; `rolling(3).mean()`
yields a value only when all three window entries are defined (NaN modelled
as `none`); `Series.mean()` skips undefined entries.
-/

namespace F1

/-- One row of the `lap_data` DataFrame: a lap-crossing record. -/
structure LapRecord where
  driver_number : Int
  lap_number : Int
  date_start : ℚ
  position : Int
deriving DecidableEq, Repr

/-- The dedup key used by `update_lap_data`: `(driver_number, lap_number)`. -/
def lapKey (r : LapRecord) : Int × Int := (r.driver_number, r.lap_number)

/-- The mutable state of `IntervalCalculator` that the claims touch:
the accumulated `lap_data` DataFrame, as an ordered list of rows. -/
structure TimingStore where
  lap_data : List LapRecord
deriving DecidableEq, Repr

/-- `IntervalCalculator.__init__`: empty `lap_data`. -/
def emptyStore : TimingStore := ⟨[]⟩

/-- `DataFrame.drop_duplicates(subset=['driver_number','lap_number'], keep='last')`:
a row is kept iff no later row has the same key; kept rows stay in order. -/
def dropDuplicatesLast : List LapRecord → List LapRecord
  | [] => []
  | r :: rs =>
      if rs.any (fun s => lapKey s = lapKey r) then dropDuplicatesLast rs
      else r :: dropDuplicatesLast rs

/-- `IntervalCalculator.update_lap_data`: no-op on empty input, else concat
followed by last-wins dedup on `(driver_number, lap_number)`. -/
def update_lap_data (store : TimingStore) (new_data : List LapRecord) : TimingStore :=
  if new_data = [] then store
  else ⟨dropDuplicatesLast (store.lap_data ++ new_data)⟩

/-- `self.lap_data[self.lap_data['driver_number'] == d]`. -/
def driverLaps (store : TimingStore) (d : Int) : List LapRecord :=
  store.lap_data.filter (fun r => r.driver_number = d)

/-- Consecutive pairs `(row[i-1], row[i])`, as iterated by the
`for i in range(1, len(...))` loops of the source. -/
def consecPairs : List α → List (α × α)
  | a :: b :: rest => (a, b) :: consecPairs (b :: rest)
  | _ => []

/-- The comparison used by `sort_values('lap_number')`. -/
def lapLE (r s : LapRecord) : Prop := r.lap_number ≤ s.lap_number

instance : DecidableRel lapLE := fun r s =>
  inferInstanceAs (Decidable (r.lap_number ≤ s.lap_number))

instance : IsTotal LapRecord lapLE := ⟨fun a b => Int.le_total a.lap_number b.lap_number⟩

instance : IsTrans LapRecord lapLE := ⟨fun _ _ _ h1 h2 => le_trans h1 h2⟩

/-- `DataFrame.sort_values('lap_number')` (ascending). -/
def sortByLap (l : List LapRecord) : List LapRecord := l.insertionSort lapLE

/-- Consecutive `date_start` deltas of a list of rows. -/
def lapDeltas (l : List LapRecord) : List ℚ :=
  (consecPairs l).map (fun p => p.2.date_start - p.1.date_start)

/-- `IntervalCalculator._get_average_lap_time`: sort the driver's rows by
lap number, take consecutive crossing-time deltas, keep `60 < t < 150`,
return their mean; `None` when fewer than 2 rows or nothing kept. -/
def get_average_lap_time (store : TimingStore) (d : Int) : Option ℚ :=
  let laps := driverLaps store d
  if laps.length < 2 then none
  else
    let lap_times := (lapDeltas (sortByLap laps)).filter (fun t => 60 < t ∧ t < 150)
    if lap_times = [] then none
    else some (lap_times.sum / (lap_times.length : ℚ))

/-- `df.loc[df['date_start'].idxmax()]`: the first row attaining the maximal
`date_start`, `none` on an empty frame. -/
def idxmaxDate : List LapRecord → Option LapRecord
  | [] => none
  | r :: rs =>
      match idxmaxDate rs with
      | none => some r
      | some m => if m.date_start ≤ r.date_start then some r else some m

/-- The `lap_data` frame optionally restricted to one lap number
(`lap_data[lap_data['lap_number'] == lap]`). -/
def lapFiltered (store : TimingStore) (lap : Option Int) : List LapRecord :=
  match lap with
  | some l => store.lap_data.filter (fun r => r.lap_number = l)
  | none => store.lap_data

/-- `IntervalCalculator.calculate_interval_at_line`.  On different latest
lap numbers it falls back to `lap_diff * average_lap_time(driver2)`
(guarded by Python truthiness of the average), else the crossing-time
difference of the two latest rows. -/
def calculate_interval_at_line (store : TimingStore) (d1 d2 : Int)
    (lap : Option Int) : Option ℚ :=
  if store.lap_data = [] then none
  else
    let ld := lapFiltered store lap
    let data1 := ld.filter (fun r => r.driver_number = d1)
    let data2 := ld.filter (fun r => r.driver_number = d2)
    match idxmaxDate data1, idxmaxDate data2 with
    | some r1, some r2 =>
        let lap_diff := r1.lap_number - r2.lap_number
        if lap_diff ≠ 0 then
          match get_average_lap_time store d2 with
          | some avg => if avg ≠ 0 then some ((lap_diff : ℚ) * avg) else none
          | none => none
        else some (r1.date_start - r2.date_start)
    | _, _ => none

/-- Inner join of two row lists on `lap_number`: for each left row in
order, all matching right rows in order (the order `pd.merge` documents
for `how='inner'`). -/
def innerJoin (l1 l2 : List LapRecord) : List (LapRecord × LapRecord) :=
  l1.flatMap (fun r1 =>
    (l2.filter (fun r2 => r2.lap_number = r1.lap_number)).map (fun r2 => (r1, r2)))

/-- The join `pd.merge(d1_laps, d2_laps, on='lap_number')` performed by
`calculate_interval_history`. -/
def mergedPairs (store : TimingStore) (d1 d2 : Int) :
    List (LapRecord × LapRecord) :=
  innerJoin (driverLaps store d1) (driverLaps store d2)

/-- One row of the frame returned by `calculate_interval_history`. -/
structure IntervalSample where
  lap_number : Int
  interval : ℚ
  position_d1 : Int
  position_d2 : Int
  interval_change : Option ℚ
  closing_rate : Option ℚ
deriving DecidableEq, Repr

/-- `(date_start_d2 - date_start_d1).total_seconds()` of a merged pair. -/
def pairInterval (p : LapRecord × LapRecord) : ℚ :=
  p.2.date_start - p.1.date_start

/-- `Series.diff()` at index `i`: `interval[i] - interval[i-1]`, NaN at 0. -/
def diffAt (ivls : List ℚ) (i : Nat) : Option ℚ :=
  if i = 0 then none
  else
    match ivls[i]?, ivls[i - 1]? with
    | some a, some b => some (a - b)
    | _, _ => none

/-- `Series.rolling(window=3).mean()` of the diff column at index `i`:
defined only when all three window entries of the diff column are. -/
def rollingAt (ivls : List ℚ) (i : Nat) : Option ℚ :=
  match diffAt ivls (i - 2), diffAt ivls (i - 1), diffAt ivls i with
  | some a, some b, some c => some ((a + b + c) / 3)
  | _, _, _ => none

/-- The sample at position `i` of the merged frame: the merged pair's
fields together with the diff and rolling-mean columns at index `i`. -/
def mkSample (ivls : List ℚ) (i : Nat) (p : LapRecord × LapRecord) :
    IntervalSample :=
  { lap_number := p.1.lap_number
    interval := pairInterval p
    position_d1 := p.1.position
    position_d2 := p.2.position
    interval_change := diffAt ivls i
    closing_rate := rollingAt ivls i }

/-- Build the sample rows of the merged frame starting at index `i`. -/
def buildSamples (ivls : List ℚ) : Nat → List (LapRecord × LapRecord) →
    List IntervalSample
  | _, [] => []
  | i, p :: rest => mkSample ivls i p :: buildSamples ivls (i + 1) rest

/-- `IntervalCalculator.calculate_interval_history`: merged rows in join
order with `interval`, `interval_change` (diff) and `closing_rate`
(rolling-3 mean of the diff). -/
def calculate_interval_history (store : TimingStore) (d1 d2 : Int) :
    List IntervalSample :=
  let rows := mergedPairs store d1 d2
  buildSamples (rows.map pairInterval) 0 rows

/-- The dict returned by `get_current_interval`. -/
structure Snapshot where
  current_interval : Option ℚ
  lap : Int
  trend : String
  closing_rate : ℚ
  position_d1 : Int
  position_d2 : Int
deriving DecidableEq, Repr

/-- `Series.tail(n)`. -/
def tailN (n : Nat) (l : List α) : List α := l.drop (l.length - n)

/-- `Series.mean()` with pandas NaN-skipping (`skipna=True`). -/
def nanMean (l : List (Option ℚ)) : ℚ :=
  let kept := l.filterMap id
  kept.sum / (kept.length : ℚ)

/-- The trend classification block of `get_current_interval`: the mean of
the last three `interval_change` entries (NaN entries skipped) against the
±0.1 thresholds; `unknown` with fewer than 3 samples. -/
def trendOf (history : List IntervalSample) : String :=
  if 3 ≤ history.length then
    let recent := nanMean (tailN 3 (history.map (fun s => s.interval_change)))
    if recent < -(1 / 10 : ℚ) then "closing"
    else if (1 / 10 : ℚ) < recent then "extending"
    else "stable"
  else "unknown"

/-- `IntervalCalculator.get_current_interval`. -/
def get_current_interval (store : TimingStore) (d1 d2 : Int) : Snapshot :=
  let history := calculate_interval_history store d1 d2
  match history.getLast? with
  | none =>
      { current_interval := none, lap := 0, trend := "unknown"
        closing_rate := 0, position_d1 := 0, position_d2 := 0 }
  | some latest =>
      { current_interval := some latest.interval
        lap := latest.lap_number
        trend := trendOf history
        closing_rate := latest.closing_rate.getD 0
        position_d1 := latest.position_d1
        position_d2 := latest.position_d2 }

/-- One event dict produced by `detect_events`. -/
structure Event where
  type : String
  lap : Int
  duration : ℚ
deriving DecidableEq, Repr

/-- `IntervalCalculator.detect_events`: scan consecutive deltas of the
sorted laps; flag a pit stop when the average lap time is truthy and the
delta exceeds it by more than 30 s. -/
def detect_events (store : TimingStore) (d : Int) : List Event :=
  let laps := driverLaps store d
  if laps.length < 2 then []
  else
    let sorted := sortByLap laps
    (consecPairs sorted).filterMap (fun p =>
      let lap_time := p.2.date_start - p.1.date_start
      match get_average_lap_time store d with
      | some avg =>
          if avg ≠ 0 ∧ avg + 30 < lap_time then
            some ⟨"pit_stop", p.2.lap_number, lap_time - avg⟩
          else none
      | none => none)

/-- Python `int()` on a float: truncation toward zero. -/
def pyInt (x : ℚ) : Int := if 0 ≤ x then ⌊x⌋ else ⌈x⌉

/-- `RaceAnalyzer.predict_catch_point`. -/
def predict_catch_point (current_interval closing_rate : ℚ)
    (current_lap total_laps : Int) : Option Int :=
  if 0 ≤ closing_rate then none
  else
    let laps_to_catch := |current_interval / closing_rate|
    let catch_lap := (current_lap : ℚ) + laps_to_catch
    if catch_lap ≤ (total_laps : ℚ) then some (pyInt catch_lap) else none

/-- `RaceAnalyzer.calculate_gap_percentage`. -/
def calculate_gap_percentage (interval lap_time : ℚ) : ℚ :=
  if lap_time ≤ 0 then 0 else (interval / lap_time) * 100

/-- `RaceAnalyzer.is_in_drs_range`. -/
def is_in_drs_range (interval : ℚ) : Bool :=
  decide (0 ≤ interval ∧ interval ≤ 1)

/-- The spec's trend classification of a mean interval-delta `m`:
`closing` below −0.1 s, `extending` above +0.1 s, else `stable`. -/
def specTrendClass (m : ℚ) : String :=
  if m < -(1 / 10 : ℚ) then "closing"
  else if (1 / 10 : ℚ) < m then "extending"
  else "stable"

/-- The `interval` column of the interval history at index `j`
(0 outside the frame). -/
def intervalAtIdx (store : TimingStore) (d1 d2 : Int) (j : Nat) : ℚ :=
  ((calculate_interval_history store d1 d2).map (fun s => s.interval)).getD j 0

/-- Lap number present in both drivers' stored records. -/
def commonLap (store : TimingStore) (d1 d2 : Int) : Prop :=
  ∃ L : Int, (∃ r1 ∈ driverLaps store d1, r1.lap_number = L) ∧
    (∃ r2 ∈ driverLaps store d2, r2.lap_number = L)

/-- The crossing time of driver `d` on lap `L`: `date_start` of the first
stored row with that driver and lap number. -/
def crossing_time (store : TimingStore) (d L : Int) : Option ℚ :=
  ((store.lap_data.filter
      (fun r => r.driver_number = d ∧ r.lap_number = L)).head?).map
    (fun r => r.date_start)

/-! ### Concrete stores used as test fixtures -/

/-- Shorthand row constructor. -/
def mkRow (d l : Int) (t : ℚ) (p : Int) : LapRecord := ⟨d, l, t, p⟩

/-- Five laps for drivers 1 and 2, ingested in ascending lap order. -/
def storeAsc : TimingStore :=
  ⟨[mkRow 1 1 0 1, mkRow 2 1 2 2, mkRow 1 2 90 1, mkRow 2 2 93 2,
    mkRow 1 3 180 1, mkRow 2 3 185 2, mkRow 1 4 270 1, mkRow 2 4 278 2,
    mkRow 1 5 360 1, mkRow 2 5 372 2]⟩

/-- Two laps per driver, ingested in descending lap order. -/
def storeOutOfOrder : TimingStore :=
  ⟨[mkRow 1 2 90 1, mkRow 1 1 0 1, mkRow 2 2 93 2, mkRow 2 1 2 2]⟩

/-- Driver 1's rows ascending, driver 2's rows descending. -/
def storeMixedOrder : TimingStore :=
  ⟨[mkRow 1 1 0 1, mkRow 2 2 13 2, mkRow 1 2 10 1, mkRow 2 1 1 2]⟩

/-- Driver 2 two laps ahead of driver 1, with different average lap times
(100 s for driver 1, 80 s for driver 2). -/
def storeLapped : TimingStore :=
  ⟨[mkRow 1 1 0 5, mkRow 1 2 100 5, mkRow 1 3 200 5,
    mkRow 2 1 0 1, mkRow 2 2 80 1, mkRow 2 3 160 1, mkRow 2 4 240 1,
    mkRow 2 5 320 1]⟩

/-- Driver 7 crossing at t = 0, 90, 91, 260 (deltas 90, 1, 169). -/
def storeOutlierLaps : TimingStore :=
  ⟨[mkRow 7 1 0 1, mkRow 7 2 90 1, mkRow 7 3 91 1, mkRow 7 4 260 1]⟩

/-- Two laps each for drivers 1 and 2. -/
def storeTwoByTwo : TimingStore :=
  ⟨[mkRow 1 1 0 1, mkRow 1 2 90 1, mkRow 2 1 1 2, mkRow 2 2 92 2]⟩

/-- A record already present in `storeTwoByTwo`, re-ingested for the
idempotence experiment. -/
def reingestedRow : LapRecord := mkRow 1 1 0 1

/-- Driver 3 crossing at t = 0, 90, 92, 320, 410: deltas 90, 2, 228, 90;
average 90; one pit-stop-like delta (228) on lap 4. -/
def storePit : TimingStore :=
  ⟨[mkRow 3 1 0 1, mkRow 3 2 90 1, mkRow 3 3 92 1, mkRow 3 4 320 1,
    mkRow 3 5 410 1]⟩

/-! ### Theorems -/

/-- The ascending fixture is the result of ingesting its rows in order. -/
theorem storeAsc_from_ingest :
    update_lap_data emptyStore storeAsc.lap_data = storeAsc := by decide

/-- The out-of-order fixture is the result of ingesting its rows in order. -/
theorem storeOutOfOrder_from_ingest :
    update_lap_data emptyStore storeOutOfOrder.lap_data = storeOutOfOrder := by decide

/-- The mixed-order fixture is the result of ingesting its rows in order. -/
theorem storeMixedOrder_from_ingest :
    update_lap_data emptyStore storeMixedOrder.lap_data = storeMixedOrder := by decide

/-- The lapped fixture is the result of ingesting its rows in order. -/
theorem storeLapped_from_ingest :
    update_lap_data emptyStore storeLapped.lap_data = storeLapped := by decide

/-- The outlier fixture is the result of ingesting its rows in order. -/
theorem storeOutlierLaps_from_ingest :
    update_lap_data emptyStore storeOutlierLaps.lap_data = storeOutlierLaps := by decide

/-- The two-by-two fixture is the result of ingesting its rows in order. -/
theorem storeTwoByTwo_from_ingest :
    update_lap_data emptyStore storeTwoByTwo.lap_data = storeTwoByTwo := by decide

/-- C5: `predict_catch_point` returns `none` whenever `closing_rate ≥ 0`;
for `closing_rate < 0` and a non-negative current lap it returns the floor
of `current_lap + |current_interval / closing_rate|` when that value is at
most `total_laps`, and `none` otherwise; the two concrete examples
(total_laps 58 ↦ lap 20, total_laps 15 ↦ none) evaluate as claimed. -/
theorem C5_predict_catch_lap :
    (∀ (ci cr : ℚ) (lap tot : Int), 0 ≤ cr →
      predict_catch_point ci cr lap tot = none) ∧
    (∀ (ci cr : ℚ) (lap tot : Int), cr < 0 → 0 ≤ lap →
      predict_catch_point ci cr lap tot =
        if (lap : ℚ) + |ci / cr| ≤ (tot : ℚ)
        then some ⌊(lap : ℚ) + |ci / cr|⌋ else none) ∧
    predict_catch_point (-5) (-(1 / 2)) 10 58 = some 20 ∧
    predict_catch_point (-5) (-(1 / 2)) 10 15 = none := by
  refine ⟨fun ci cr lap tot h => by simp [predict_catch_point, h],
    fun ci cr lap tot h hl => ?_, ?_, ?_⟩
  · have hnot : ¬ (0 ≤ cr) := not_le.2 h
    have h0 : (0 : ℚ) ≤ (lap : ℚ) + |ci / cr| :=
      add_nonneg (by exact_mod_cast hl) (abs_nonneg _)
    simp only [predict_catch_point, if_neg hnot, pyInt, if_pos h0]
  · norm_num [predict_catch_point, pyInt]
  · norm_num [predict_catch_point, pyInt]

/-- Witness for C5 at concrete inputs. -/
theorem C5_witness :
    predict_catch_point 3 0 10 58 = none ∧
    predict_catch_point (-5) (-(1 / 2)) 10 58 =
      (if (10 : ℚ) + |(-5 : ℚ) / (-(1 / 2))| ≤ (58 : ℚ)
       then some ⌊(10 : ℚ) + |(-5 : ℚ) / (-(1 / 2))|⌋ else none) :=
  ⟨C5_predict_catch_lap.1 3 0 10 58 (le_refl 0),
   C5_predict_catch_lap.2.1 (-5) (-(1 / 2)) 10 58 (by norm_num) (by norm_num)⟩

/-- C8: both ratio computations are guarded: `predict_catch_point` returns
`none` for any non-negative (in particular zero) closing rate before any
division, and `calculate_gap_percentage` returns 0 for `lap_time ≤ 0` and
`(interval / lap_time) * 100` otherwise; both are total functions. -/
theorem C8_division_guards :
    (∀ (ci cr : ℚ) (lap tot : Int), 0 ≤ cr →
      predict_catch_point ci cr lap tot = none) ∧
    (∀ i lt : ℚ, lt ≤ 0 → calculate_gap_percentage i lt = 0) ∧
    (∀ i lt : ℚ, 0 < lt → calculate_gap_percentage i lt = i / lt * 100) := by
  refine ⟨fun ci cr lap tot h => by simp [predict_catch_point, h],
    fun i lt h => by simp [calculate_gap_percentage, h],
    fun i lt h => by simp [calculate_gap_percentage, not_le.2 h]⟩

/-- Witness for C8 at concrete inputs (zero closing rate, zero lap time,
positive lap time). -/
theorem C8_witness :
    predict_catch_point 5 0 1 50 = none ∧
    calculate_gap_percentage 2 0 = 0 ∧
    calculate_gap_percentage 2 90 = 2 / 90 * 100 :=
  ⟨C8_division_guards.1 5 0 1 50 (le_refl 0),
   C8_division_guards.2.1 2 0 (le_refl 0),
   C8_division_guards.2.2 2 90 (by norm_num)⟩

/-- C6: `_get_average_lap_time` sorts the driver's rows by lap number (a
sorted permutation of the stored rows), takes consecutive crossing-time
deltas, excludes every delta ≤ 60 or ≥ 150, and returns the mean of the
remainder, `none` when fewer than 2 rows exist or everything is excluded;
laps at t = 0, 90, 91, 260 give an average of 90. -/
theorem C6_average_lap_time (S : TimingStore) (d : Int) :
    (sortByLap (driverLaps S d)).Perm (driverLaps S d) ∧
    List.Sorted lapLE (sortByLap (driverLaps S d)) ∧
    ((driverLaps S d).length < 2 → get_average_lap_time S d = none) ∧
    (2 ≤ (driverLaps S d).length →
      get_average_lap_time S d =
        if ((lapDeltas (sortByLap (driverLaps S d))).filter
              (fun t => ¬(t ≤ 60 ∨ 150 ≤ t))) = [] then none
        else some (((lapDeltas (sortByLap (driverLaps S d))).filter
              (fun t => ¬(t ≤ 60 ∨ 150 ≤ t))).sum /
            (((lapDeltas (sortByLap (driverLaps S d))).filter
              (fun t => ¬(t ≤ 60 ∨ 150 ≤ t))).length : ℚ))) ∧
    get_average_lap_time storeOutlierLaps 7 = some 90 := by
  have hfilter : ∀ l : List ℚ,
      l.filter (fun t => 60 < t ∧ t < 150) =
      l.filter (fun t => ¬(t ≤ 60 ∨ 150 ≤ t)) := by
    intro l
    refine List.filter_congr (fun t _ => ?_)
    simp [not_or, not_le]
  refine ⟨List.perm_insertionSort lapLE _, List.sorted_insertionSort lapLE _,
    fun h => by simp [get_average_lap_time, h], fun h => ?_, ?_⟩
  · rw [get_average_lap_time, if_neg (not_lt.2 h)]
    simp only [hfilter]
  · norm_num [get_average_lap_time, driverLaps, storeOutlierLaps, mkRow,
      sortByLap, List.insertionSort, List.orderedInsert, lapLE, lapDeltas,
      consecPairs]

/-- Witness for C6: a driver with no rows at all has no average. -/
theorem C6_witness :
    (driverLaps storeOutlierLaps 99).length < 2 ∧
    get_average_lap_time storeOutlierLaps 99 = none :=
  ⟨by decide, (C6_average_lap_time storeOutlierLaps 99).2.2.1 (by decide)⟩

/-- C1 counterexample: with laps ingested in descending order the series
produced by `calculate_interval_history` is not ordered by ascending
lap_number (the join preserves ingestion order; nothing sorts it). -/
theorem C1_counterexample :
    ((calculate_interval_history storeOutOfOrder 1 2).map
      (fun s => s.lap_number)) = [2, 1] ∧
    ¬ List.Sorted (· ≤ ·)
      ((calculate_interval_history storeOutOfOrder 1 2).map
        (fun s => s.lap_number)) := by
  decide

/-- C2 counterexample: when the two drivers' rows are stored in different
orders, the two call directions pair up different laps at the same index,
so index-wise antisymmetry fails (index 0 gives 1 vs −(−3)). -/
theorem C2_counterexample :
    ¬ (∀ i : Nat,
      ((calculate_interval_history storeMixedOrder 1 2).map
        (fun s => s.interval)).getD i 0 =
      -(((calculate_interval_history storeMixedOrder 2 1).map
        (fun s => s.interval)).getD i 0)) := by
  intro h
  have h0 := h 0
  norm_num [calculate_interval_history, mergedPairs, innerJoin, driverLaps,
    storeMixedOrder, mkRow, pairInterval, diffAt, rollingAt, buildSamples,
    mkSample, List.flatMap] at h0

/-- C3 counterexample: with driver 1 on lap 3 and driver 2 on lap 5, the
code returns `lap_diff * average_lap_time(driver2)` = −2·80 = −160, not
the trailing competitor's (driver 1's) average, which would give −200. -/
theorem C3_counterexample :
    calculate_interval_at_line storeLapped 1 2 none = some (-160) ∧
    get_average_lap_time storeLapped 1 = some 100 ∧
    get_average_lap_time storeLapped 2 = some 80 ∧
    calculate_interval_at_line storeLapped 1 2 none ≠
      some (((3 : ℚ) - 5) * 100) := by
  have havg1 : get_average_lap_time storeLapped 1 = some 100 := by
    norm_num [get_average_lap_time, driverLaps, storeLapped, mkRow, sortByLap,
      List.insertionSort, List.orderedInsert, lapLE, lapDeltas, consecPairs]
    exact fun h => List.noConfusion h
  have havg2 : get_average_lap_time storeLapped 2 = some 80 := by
    norm_num [get_average_lap_time, driverLaps, storeLapped, mkRow, sortByLap,
      List.insertionSort, List.orderedInsert, lapLE, lapDeltas, consecPairs]
    exact fun h => List.noConfusion h
  have hline : calculate_interval_at_line storeLapped 1 2 none = some (-160) := by
    unfold calculate_interval_at_line
    rw [havg2]
    norm_num [lapFiltered, storeLapped, mkRow, idxmaxDate, driverLaps]
    exact fun h => List.noConfusion h
  refine ⟨hline, havg1, havg2, by rw [hline]; norm_num⟩

/-- A list whose keys contain no duplicate is left unchanged by the
last-wins dedup. -/
theorem dropDuplicatesLast_eq_self (l : List LapRecord)
    (h : (l.map lapKey).Nodup) : dropDuplicatesLast l = l := by
  induction l with
  | nil => rfl
  | cons x xs ih =>
    rw [List.map_cons, List.nodup_cons] at h
    rw [dropDuplicatesLast, if_neg, ih h.2]
    simp only [List.any_eq_true, decide_eq_true_eq, not_exists, not_and]
    intro s hs heq
    exact h.1 (heq ▸ List.mem_map_of_mem lapKey hs)

/-- Re-appending a record already present in a duplicate-key-free list and
deduplicating yields a permutation of the original list (the re-ingested
record moves to the end). -/
theorem dropDuplicatesLast_append_perm (l : List LapRecord) (r : LapRecord)
    (h : (l.map lapKey).Nodup) (hr : r ∈ l) :
    (dropDuplicatesLast (l ++ [r])).Perm l := by
  induction l with
  | nil => cases hr
  | cons x xs ih =>
    rw [List.map_cons, List.nodup_cons] at h
    rw [List.cons_append, dropDuplicatesLast]
    by_cases hx : lapKey r = lapKey x
    · have hrx : r = x := by
        rcases List.mem_cons.1 hr with h1 | h1
        · exact h1
        · exact absurd (hx ▸ List.mem_map_of_mem lapKey h1) h.1
      subst hrx
      rw [if_pos, dropDuplicatesLast_eq_self]
      · exact List.perm_append_singleton r xs
      · rw [List.map_append, List.map_cons, List.map_nil]
        refine List.Nodup.append h.2 (List.nodup_singleton _) ?_
        intro a ha hax
        rw [List.mem_singleton] at hax
        subst hax
        exact h.1 ha
      · simp
    · have hrxs : r ∈ xs := by
        rcases List.mem_cons.1 hr with h1 | h1
        · exact absurd (h1 ▸ rfl) hx
        · exact h1
      rw [if_neg]
      · exact (ih h.2 hrxs).cons x
      · simp only [List.any_eq_true, decide_eq_true_eq, not_exists, not_and]
        intro s hs
        rcases List.mem_append.1 hs with h1 | h1
        · exact fun heq => h.1 (heq ▸ List.mem_map_of_mem lapKey h1)
        · rw [List.mem_singleton.1 h1]
          exact hx

/-- C9 amended: re-ingesting a record already present leaves the stored
rows unchanged as a multiset (the keyed content is identical), under the
store invariant that keys are duplicate-free; the row ORDER may change
(the record moves to the end), which `C9_counterexample` shows to be
observable downstream. -/
theorem C9_reingest_perm (S : TimingStore) (r : LapRecord)
    (h : (S.lap_data.map lapKey).Nodup) (hr : r ∈ S.lap_data) :
    ((update_lap_data S [r]).lap_data).Perm S.lap_data := by
  rw [update_lap_data, if_neg (by simp : ¬ ([r] : List LapRecord) = [])]
  exact dropDuplicatesLast_append_perm _ r h hr

/-- Witness for C9 at the concrete two-by-two store. -/
theorem C9_witness :
    (storeTwoByTwo.lap_data.map lapKey).Nodup ∧
    reingestedRow ∈ storeTwoByTwo.lap_data ∧
    ((update_lap_data storeTwoByTwo [reingestedRow]).lap_data).Perm
      storeTwoByTwo.lap_data :=
  ⟨by decide, by decide,
   C9_reingest_perm storeTwoByTwo reingestedRow (by decide) (by decide)⟩

/-- C9 counterexample: re-ingesting a record already present moves its row
to the end of the frame (`keep='last'`), so the store, compared as the
ordered frame the code keeps, changes, and the change is observable
through the order of `calculate_interval_history`. -/
theorem C9_counterexample :
    reingestedRow ∈ storeTwoByTwo.lap_data ∧
    update_lap_data storeTwoByTwo [reingestedRow] ≠ storeTwoByTwo ∧
    calculate_interval_history
        (update_lap_data storeTwoByTwo [reingestedRow]) 1 2 ≠
      calculate_interval_history storeTwoByTwo 1 2 := by
  refine ⟨by decide, by decide, by decide⟩

/-! ### Structural lemmas about the interval-history frame -/

theorem buildSamples_length (ivls : List ℚ) (i : Nat)
    (rows : List (LapRecord × LapRecord)) :
    (buildSamples ivls i rows).length = rows.length := by
  induction rows generalizing i with
  | nil => rfl
  | cons p rest ih => simp [buildSamples, ih]

theorem buildSamples_getElem? (ivls : List ℚ) (i j : Nat)
    (rows : List (LapRecord × LapRecord)) :
    (buildSamples ivls i rows)[j]? = (rows[j]?).map (mkSample ivls (i + j)) := by
  induction rows generalizing i j with
  | nil => simp [buildSamples]
  | cons p rest ih =>
    cases j with
    | zero => simp [buildSamples]
    | succ k =>
      rw [buildSamples, List.getElem?_cons_succ, List.getElem?_cons_succ, ih]
      have : i + 1 + k = i + (k + 1) := by omega
      rw [this]

theorem buildSamples_map_interval (ivls : List ℚ) (i : Nat)
    (rows : List (LapRecord × LapRecord)) :
    (buildSamples ivls i rows).map (fun s => s.interval) =
      rows.map pairInterval := by
  induction rows generalizing i with
  | nil => rfl
  | cons p rest ih => simp [buildSamples, mkSample, ih]

theorem buildSamples_map_lap (ivls : List ℚ) (i : Nat)
    (rows : List (LapRecord × LapRecord)) :
    (buildSamples ivls i rows).map (fun s => s.lap_number) =
      rows.map (fun p => p.1.lap_number) := by
  induction rows generalizing i with
  | nil => rfl
  | cons p rest ih => simp [buildSamples, mkSample, ih]

theorem buildSamples_map_change (ivls : List ℚ) (i : Nat)
    (rows : List (LapRecord × LapRecord)) :
    (buildSamples ivls i rows).map (fun s => s.interval_change) =
      (List.range' i rows.length).map (diffAt ivls) := by
  induction rows generalizing i with
  | nil => rfl
  | cons p rest ih =>
    rw [List.length_cons, List.range'_succ]
    simp [buildSamples, mkSample, ih]

theorem mem_buildSamples (ivls : List ℚ) (i : Nat)
    (rows : List (LapRecord × LapRecord)) (s : IntervalSample) :
    s ∈ buildSamples ivls i rows ↔
      ∃ j p, rows[j]? = some p ∧ s = mkSample ivls (i + j) p := by
  rw [List.mem_iff_getElem?]
  constructor
  · rintro ⟨j, hj⟩
    rw [buildSamples_getElem?] at hj
    rcases Option.map_eq_some'.1 hj with ⟨p, hp, hs⟩
    exact ⟨j, p, hp, hs.symm⟩
  · rintro ⟨j, p, hp, hs⟩
    refine ⟨j, ?_⟩
    rw [buildSamples_getElem?, hp, Option.map_some', hs]

theorem diffAt_zero (ivls : List ℚ) : diffAt ivls 0 = none := by
  simp [diffAt]

theorem diffAt_eq_some (ivls : List ℚ) (i : Nat) (h1 : 1 ≤ i)
    (h2 : i < ivls.length) :
    diffAt ivls i = some (ivls.getD i 0 - ivls.getD (i - 1) 0) := by
  have h3 : i - 1 < ivls.length := by omega
  rw [diffAt, if_neg (by omega), List.getElem?_eq_getElem h2,
    List.getElem?_eq_getElem h3]
  rw [List.getD_eq_getElem?_getD, List.getD_eq_getElem?_getD,
    List.getElem?_eq_getElem h2, List.getElem?_eq_getElem h3]
  rfl

theorem diffAt_eq_none (ivls : List ℚ) (i : Nat)
    (h : ivls.length ≤ i) : diffAt ivls i = none := by
  rcases Nat.eq_zero_or_pos i with h0 | h0
  · rw [h0]; exact diffAt_zero ivls
  · rw [diffAt, if_neg (by omega), List.getElem?_eq_none h]

theorem rollingAt_eq_none (ivls : List ℚ) (i : Nat) (h : i < 3) :
    rollingAt ivls i = none := by
  have h2 : i - 2 = 0 := by omega
  rw [rollingAt, h2, diffAt_zero]

theorem rollingAt_eq_some (ivls : List ℚ) (i : Nat) (h3 : 3 ≤ i)
    (hlen : i < ivls.length) :
    rollingAt ivls i =
      some (((ivls.getD (i - 2) 0 - ivls.getD (i - 3) 0) +
             (ivls.getD (i - 1) 0 - ivls.getD (i - 2) 0) +
             (ivls.getD i 0 - ivls.getD (i - 1) 0)) / 3) := by
  have e2 : i - 2 - 1 = i - 3 := by omega
  have e1 : i - 1 - 1 = i - 2 := by omega
  rw [rollingAt, diffAt_eq_some ivls (i - 2) (by omega) (by omega),
    diffAt_eq_some ivls (i - 1) (by omega) (by omega),
    diffAt_eq_some ivls i (by omega) hlen, e2, e1]

/-- Membership in the inner join: exactly the pairs of a left row and a
right row sharing a lap number. -/
theorem mem_innerJoin (l1 l2 : List LapRecord) (p : LapRecord × LapRecord) :
    p ∈ innerJoin l1 l2 ↔
      p.1 ∈ l1 ∧ p.2 ∈ l2 ∧ p.2.lap_number = p.1.lap_number := by
  simp only [innerJoin, List.mem_flatMap, List.mem_map, List.mem_filter,
    decide_eq_true_eq]
  constructor
  · rintro ⟨r1, h1, r2, ⟨h2, hlap⟩, rfl⟩
    exact ⟨h1, h2, hlap⟩
  · rintro ⟨h1, h2, hlap⟩
    exact ⟨p.1, h1, p.2, ⟨h2, hlap⟩, rfl⟩

/-- The interval history is nonempty exactly when the drivers share a lap. -/
theorem history_ne_nil_iff (S : TimingStore) (d1 d2 : Int) :
    calculate_interval_history S d1 d2 ≠ [] ↔ commonLap S d1 d2 := by
  have hlen : (calculate_interval_history S d1 d2).length =
      (mergedPairs S d1 d2).length := buildSamples_length _ _ _
  constructor
  · intro h
    have hrows : mergedPairs S d1 d2 ≠ [] := by
      intro hnil
      apply h
      rw [← List.length_eq_zero, hlen, hnil]
      rfl
    rcases List.exists_mem_of_ne_nil _ hrows with ⟨p, hp⟩
    rcases (mem_innerJoin _ _ p).1 hp with ⟨h1, h2, hlap⟩
    exact ⟨p.1.lap_number, ⟨p.1, h1, rfl⟩, ⟨p.2, h2, hlap⟩⟩
  · rintro ⟨L, ⟨r1, h1, hl1⟩, ⟨r2, h2, hl2⟩⟩ hnil
    have hp : (r1, r2) ∈ mergedPairs S d1 d2 :=
      (mem_innerJoin _ _ (r1, r2)).2 ⟨h1, h2, by rw [hl1, hl2]⟩
    have : (mergedPairs S d1 d2).length = 0 := by
      rw [← hlen, hnil]; rfl
    rw [List.length_eq_zero] at this
    rw [this] at hp
    cases hp

theorem history_getElem? (S : TimingStore) (d1 d2 : Int) (j : Nat) :
    (calculate_interval_history S d1 d2)[j]? =
      ((mergedPairs S d1 d2)[j]?).map
        (mkSample ((mergedPairs S d1 d2).map pairInterval) j) := by
  have h := buildSamples_getElem? ((mergedPairs S d1 d2).map pairInterval) 0 j
    (mergedPairs S d1 d2)
  rw [Nat.zero_add] at h
  exact h

theorem get_current_interval_of_getLast (S : TimingStore) (d1 d2 : Int)
    (latest : IntervalSample)
    (hl : (calculate_interval_history S d1 d2).getLast? = some latest) :
    get_current_interval S d1 d2 =
      { current_interval := some latest.interval
        lap := latest.lap_number
        trend := trendOf (calculate_interval_history S d1 d2)
        closing_rate := latest.closing_rate.getD 0
        position_d1 := latest.position_d1
        position_d2 := latest.position_d2 } := by
  simp only [get_current_interval, hl]

/-- C10: for any pair of drivers with at least one common lap the snapshot
always carries a numeric closing rate — the last sample's rolling mean
when defined, and the 0.0 default whenever fewer than 4 joined laps
exist (the rolling mean is then undefined). -/
theorem C10_closing_rate_defaults (S : TimingStore) (a b : Int)
    (h : commonLap S a b) :
    (get_current_interval S a b).closing_rate =
      (((calculate_interval_history S a b).getLast?).bind
        (fun s => s.closing_rate)).getD 0 ∧
    ((calculate_interval_history S a b).length < 4 →
      (get_current_interval S a b).closing_rate = 0) := by
  have hne := (history_ne_nil_iff S a b).2 h
  have hl := List.getLast?_eq_getLast _ hne
  have hsnap := get_current_interval_of_getLast S a b _ hl
  constructor
  · rw [hsnap, hl]
    rfl
  · intro hlen
    have hg : (calculate_interval_history S a b)[(calculate_interval_history S a b).length - 1]? =
        some ((calculate_interval_history S a b).getLast hne) := by
      rw [← List.getLast?_eq_getElem?]
      exact hl
    rw [history_getElem?] at hg
    rcases Option.map_eq_some'.1 hg with ⟨p, _, hs⟩
    have hcr : ((calculate_interval_history S a b).getLast hne).closing_rate = none := by
      rw [← hs, mkSample]
      exact rollingAt_eq_none _ _ (by omega)
    rw [hsnap]
    simp only [hcr]
    rfl

/-- Witness for C10 at the two-by-two store (2 joined laps, so the rolling
mean is undefined and the snapshot reports 0.0). -/
theorem C10_witness :
    commonLap storeTwoByTwo 1 2 ∧
    (calculate_interval_history storeTwoByTwo 1 2).length < 4 ∧
    (get_current_interval storeTwoByTwo 1 2).closing_rate = 0 := by
  have hc : commonLap storeTwoByTwo 1 2 :=
    ⟨1, ⟨mkRow 1 1 0 1, by decide, rfl⟩, ⟨mkRow 2 1 1 2, by decide, rfl⟩⟩
  exact ⟨hc, by decide,
    (C10_closing_rate_defaults storeTwoByTwo 1 2 hc).2 (by decide)⟩

/-- C2 amended: antisymmetry holds lap-wise rather than index-wise — every
sample of `interval_series(a, b)` has a counterpart sample of
`interval_series(b, a)` on the same lap whose interval is its negation.
(`C2_counterexample` shows the index-wise form fails when the two drivers'
rows are stored in different orders.) -/
theorem C2_lapwise_antisymmetry (S : TimingStore) (a b : Int) :
    ∀ s ∈ calculate_interval_history S a b,
      ∃ t ∈ calculate_interval_history S b a,
        t.lap_number = s.lap_number ∧ t.interval = -s.interval := by
  intro s hs
  simp only [calculate_interval_history] at hs ⊢
  rcases (mem_buildSamples _ 0 _ s).1 hs with ⟨j, p, hp, rfl⟩
  have hpm : p ∈ mergedPairs S a b := by
    exact List.mem_iff_getElem?.2 ⟨j, hp⟩
  rcases (mem_innerJoin _ _ p).1 hpm with ⟨h1, h2, hlap⟩
  have hq : (p.2, p.1) ∈ mergedPairs S b a :=
    (mem_innerJoin _ _ (p.2, p.1)).2 ⟨h2, h1, hlap.symm⟩
  rcases List.mem_iff_getElem?.1 hq with ⟨k, hk⟩
  refine ⟨mkSample ((mergedPairs S b a).map pairInterval) k (p.2, p.1),
    (mem_buildSamples _ 0 _ _).2 ⟨k, (p.2, p.1), hk, by rw [Nat.zero_add]⟩,
    ?_, ?_⟩
  · simp only [mkSample]
    exact hlap
  · simp only [mkSample, pairInterval, neg_sub]

/-- Witness for C2 at the two-by-two store. -/
theorem C2_witness :
    (⟨1, 1, 1, 2, none, none⟩ : IntervalSample) ∈
      calculate_interval_history storeTwoByTwo 1 2 ∧
    ∃ t ∈ calculate_interval_history storeTwoByTwo 2 1,
      t.lap_number = (1 : Int) ∧ t.interval = -(1 : ℚ) := by
  have heval : calculate_interval_history storeTwoByTwo 1 2 =
      [⟨1, 1, 1, 2, none, none⟩, ⟨2, 2, 1, 2, some 1, none⟩] := by
    norm_num [calculate_interval_history, mergedPairs, innerJoin, driverLaps,
      storeTwoByTwo, mkRow, pairInterval, buildSamples, mkSample, diffAt,
      rollingAt, List.flatMap]
  have hmem : (⟨1, 1, 1, 2, none, none⟩ : IntervalSample) ∈
      calculate_interval_history storeTwoByTwo 1 2 := by
    rw [heval]
    exact List.mem_cons_self _ _
  exact ⟨hmem, C2_lapwise_antisymmetry storeTwoByTwo 1 2 _ hmem⟩

/-- A list of rationals all above a bound sums to more than the bound
times its length. -/
theorem mul_length_lt_sum (l : List ℚ) (c : ℚ) (hne : l ≠ [])
    (h : ∀ x ∈ l, c < x) : c * l.length < l.sum := by
  induction l with
  | nil => exact absurd rfl hne
  | cons x xs ih =>
    rcases eq_or_ne xs [] with rfl | hxs
    · simpa using h x (List.mem_cons_self x [])
    · have hx := h x (List.mem_cons_self x xs)
      have hxs' := ih hxs (fun y hy => h y (List.mem_cons_of_mem x hy))
      simp only [List.sum_cons, List.length_cons]
      push_cast
      linarith

/-- Any average lap time the estimator returns exceeds the 60 s lower
outlier bound (in particular it is nonzero / Python-truthy). -/
theorem get_average_lap_time_pos (S : TimingStore) (d : Int) (v : ℚ)
    (h : get_average_lap_time S d = some v) : 60 < v := by
  rw [get_average_lap_time] at h
  by_cases hlen : (driverLaps S d).length < 2
  · rw [if_pos hlen] at h
    cases h
  · rw [if_neg hlen] at h
    by_cases hnil : ((lapDeltas (sortByLap (driverLaps S d))).filter
        (fun t => 60 < t ∧ t < 150)) = []
    · rw [if_pos hnil] at h
      cases h
    · rw [if_neg hnil] at h
      injection h with h
      set kept := (lapDeltas (sortByLap (driverLaps S d))).filter
        (fun t => 60 < t ∧ t < 150) with hk
      have hall : ∀ t ∈ kept, 60 < t := by
        intro t ht
        have := (List.mem_filter.1 ht).2
        rw [decide_eq_true_eq] at this
        exact this.1
      have hpos : (0 : ℚ) < kept.length := by
        have : 0 < kept.length := List.length_pos.2 hnil
        exact_mod_cast this
      have hsum := mul_length_lt_sum kept 60 hnil hall
      rw [← h, lt_div_iff₀ hpos]
      linarith

/-- C3 amended: when the two latest rows are on different lap numbers,
`calculate_interval_at_line` returns `lap_difference ×
average_lap_time(driver2)` — the average of the SECOND-NAMED competitor,
whichever competitor is trailing — and `none` when that average is
unavailable. -/
theorem C3_cross_lap (S : TimingStore) (d1 d2 : Int) (lap : Option Int)
    (r1 r2 : LapRecord)
    (hne : ¬ (S.lap_data = []))
    (h1 : idxmaxDate ((lapFiltered S lap).filter
      (fun r => r.driver_number = d1)) = some r1)
    (h2 : idxmaxDate ((lapFiltered S lap).filter
      (fun r => r.driver_number = d2)) = some r2)
    (hdiff : r1.lap_number ≠ r2.lap_number) :
    calculate_interval_at_line S d1 d2 lap =
      (get_average_lap_time S d2).map
        (fun v => ((r1.lap_number - r2.lap_number : Int) : ℚ) * v) := by
  simp only [calculate_interval_at_line]
  rw [if_neg hne, h1, h2]
  simp only []
  rw [if_pos (sub_ne_zero.2 hdiff)]
  cases havg : get_average_lap_time S d2 with
  | none => rfl
  | some v =>
      have hv := get_average_lap_time_pos S d2 v havg
      dsimp only
      rw [if_pos (show v ≠ 0 by intro h0; rw [h0] at hv; norm_num at hv)]
      rfl

/-- Witness for C3 at the lapped store (driver 1 latest on lap 3, driver 2
latest on lap 5). -/
theorem C3_witness :
    ¬ (storeLapped.lap_data = []) ∧
    idxmaxDate ((lapFiltered storeLapped none).filter
      (fun r => r.driver_number = 1)) = some (mkRow 1 3 200 5) ∧
    idxmaxDate ((lapFiltered storeLapped none).filter
      (fun r => r.driver_number = 2)) = some (mkRow 2 5 320 1) ∧
    calculate_interval_at_line storeLapped 1 2 none =
      (get_average_lap_time storeLapped 2).map
        (fun v => (((3 : Int) - 5 : Int) : ℚ) * v) :=
  ⟨by decide, by decide, by decide,
   C3_cross_lap storeLapped 1 2 none (mkRow 1 3 200 5) (mkRow 2 5 320 1)
     (by decide) (by decide) (by decide) (by decide)⟩

theorem history_length_eq (S : TimingStore) (a b : Int) :
    (calculate_interval_history S a b).length = (mergedPairs S a b).length :=
  buildSamples_length _ 0 _

theorem history_map_interval (S : TimingStore) (a b : Int) :
    (calculate_interval_history S a b).map (fun s => s.interval) =
      (mergedPairs S a b).map pairInterval :=
  buildSamples_map_interval _ 0 _

theorem history_map_change (S : TimingStore) (a b : Int) :
    (calculate_interval_history S a b).map (fun s => s.interval_change) =
      (List.range' 0 (mergedPairs S a b).length).map
        (diffAt ((mergedPairs S a b).map pairInterval)) :=
  buildSamples_map_change _ 0 _

theorem trendOf_eq_specTrendClass (history : List IntervalSample)
    (h3 : 3 ≤ history.length) :
    trendOf history = specTrendClass
      (nanMean (tailN 3 (history.map (fun s => s.interval_change)))) := by
  rw [trendOf, if_pos h3]
  rfl

/-- With `m + 4` joined laps the mean feeding the trend is the mean of the
last three (defined) interval deltas. -/
theorem nanMean_tail3_of_add_four (S : TimingStore) (a b : Int) (m : Nat)
    (hn : (mergedPairs S a b).length = m + 4) :
    nanMean (tailN 3 ((calculate_interval_history S a b).map
      (fun s => s.interval_change))) =
      ((((mergedPairs S a b).map pairInterval).getD (m + 1) 0 -
          ((mergedPairs S a b).map pairInterval).getD m 0) +
       (((mergedPairs S a b).map pairInterval).getD (m + 2) 0 -
          ((mergedPairs S a b).map pairInterval).getD (m + 1) 0) +
       (((mergedPairs S a b).map pairInterval).getD (m + 3) 0 -
          ((mergedPairs S a b).map pairInterval).getD (m + 2) 0)) / 3 := by
  set ivls := (mergedPairs S a b).map pairInterval with hivls
  have hlen : ivls.length = m + 4 := by
    rw [hivls, List.length_map, hn]
  rw [history_map_change, tailN, List.length_map, List.length_range', hn]
  have hm43 : m + 4 - 3 = m + 1 := by omega
  rw [hm43, ← List.map_drop]
  have hsplit : List.range' 0 (m + 4) =
      List.range' 0 (m + 1) ++ List.range' (m + 1) 3 := by
    have h := List.range'_append_1 0 (m + 1) 3
    rw [Nat.zero_add] at h
    have h43 : m + 4 = 3 + (m + 1) := by omega
    rw [h43, ← h]
  have hdrop : (List.range' 0 (m + 4)).drop (m + 1) = List.range' (m + 1) 3 := by
    rw [hsplit]
    have h := List.drop_left (List.range' 0 (m + 1)) (List.range' (m + 1) 3)
    rwa [List.length_range'] at h
  rw [hdrop]
  have h1 := diffAt_eq_some ivls (m + 1) (by omega) (by omega)
  have h2 := diffAt_eq_some ivls (m + 2) (by omega) (by omega)
  have h3 := diffAt_eq_some ivls (m + 3) (by omega) (by omega)
  have e1 : m + 1 - 1 = m := by omega
  have e2 : m + 2 - 1 = m + 1 := by omega
  have e3 : m + 3 - 1 = m + 2 := by omega
  rw [e1] at h1
  rw [e2] at h2
  rw [e3] at h3
  rw [show List.range' (m + 1) 3 = [m + 1, m + 2, m + 3] from rfl]
  rw [List.map_cons, List.map_cons, List.map_cons, List.map_nil, h1, h2, h3]
  rw [nanMean]
  simp only [List.filterMap_cons, id, List.filterMap_nil, List.sum_cons,
    List.sum_nil, List.length_cons, List.length_nil]
  norm_num

/-- With exactly 3 joined laps only two deltas exist; the NaN entry at
index 0 is skipped and the mean is over the two defined deltas. -/
theorem nanMean_tail3_of_three (S : TimingStore) (a b : Int)
    (hn : (mergedPairs S a b).length = 3) :
    nanMean (tailN 3 ((calculate_interval_history S a b).map
      (fun s => s.interval_change))) =
      ((((mergedPairs S a b).map pairInterval).getD 1 0 -
          ((mergedPairs S a b).map pairInterval).getD 0 0) +
       (((mergedPairs S a b).map pairInterval).getD 2 0 -
          ((mergedPairs S a b).map pairInterval).getD 1 0)) / 2 := by
  set ivls := (mergedPairs S a b).map pairInterval with hivls
  have hlen : ivls.length = 3 := by
    rw [hivls, List.length_map, hn]
  rw [history_map_change, tailN, List.length_map, List.length_range', hn]
  rw [show (3 : Nat) - 3 = 0 from rfl, List.drop_zero]
  rw [show List.range' 0 3 = [0, 1, 2] from rfl]
  have h1 := diffAt_eq_some ivls 1 (by omega) (by omega)
  have h2 := diffAt_eq_some ivls 2 (by omega) (by omega)
  rw [show (1 : Nat) - 1 = 0 from rfl] at h1
  rw [show (2 : Nat) - 1 = 1 from rfl] at h2
  rw [List.map_cons, List.map_cons, List.map_cons, List.map_nil,
    diffAt_zero, h1, h2]
  rw [nanMean]
  simp only [List.filterMap_cons, id, List.filterMap_nil, List.sum_cons,
    List.sum_nil, List.length_cons, List.length_nil]
  norm_num

/-- C4: `get_current_interval` returns the sentinel snapshot on an empty
series; otherwise it reports the latest sample's interval, lap and
positions, classifies the trend as `unknown` below 3 samples, and
otherwise classifies the mean of the last 3 interval deltas (only two
exist at exactly 3 samples) against the ±0.1 s thresholds; the spec's
example means −0.15 / +0.15 / +0.02 classify as closing / extending /
stable. -/
theorem C4_current_snapshot (S : TimingStore) (a b : Int) :
    (calculate_interval_history S a b = [] →
      get_current_interval S a b =
        { current_interval := none, lap := 0, trend := "unknown"
          closing_rate := 0, position_d1 := 0, position_d2 := 0 }) ∧
    (∀ hne : calculate_interval_history S a b ≠ [],
      (get_current_interval S a b).current_interval =
        some (((calculate_interval_history S a b).getLast hne).interval) ∧
      (get_current_interval S a b).lap =
        ((calculate_interval_history S a b).getLast hne).lap_number ∧
      (get_current_interval S a b).position_d1 =
        ((calculate_interval_history S a b).getLast hne).position_d1 ∧
      (get_current_interval S a b).position_d2 =
        ((calculate_interval_history S a b).getLast hne).position_d2) ∧
    (calculate_interval_history S a b ≠ [] →
      (calculate_interval_history S a b).length < 3 →
      (get_current_interval S a b).trend = "unknown") ∧
    (∀ m : Nat, (calculate_interval_history S a b).length = m + 4 →
      (get_current_interval S a b).trend = specTrendClass
        (((intervalAtIdx S a b (m + 1) - intervalAtIdx S a b m) +
          (intervalAtIdx S a b (m + 2) - intervalAtIdx S a b (m + 1)) +
          (intervalAtIdx S a b (m + 3) - intervalAtIdx S a b (m + 2))) / 3)) ∧
    ((calculate_interval_history S a b).length = 3 →
      (get_current_interval S a b).trend = specTrendClass
        (((intervalAtIdx S a b 1 - intervalAtIdx S a b 0) +
          (intervalAtIdx S a b 2 - intervalAtIdx S a b 1)) / 2)) ∧
    specTrendClass (-(15 / 100)) = "closing" ∧
    specTrendClass (15 / 100) = "extending" ∧
    specTrendClass (2 / 100) = "stable" := by
  refine ⟨fun h => ?_, fun hne => ?_, fun hne hlen => ?_, fun m hm => ?_,
    fun hm => ?_, ?_, ?_, ?_⟩
  · simp only [get_current_interval, h]
    rfl
  · have hl := List.getLast?_eq_getLast _ hne
    rw [get_current_interval_of_getLast S a b _ hl]
    exact ⟨rfl, rfl, rfl, rfl⟩
  · have hl := List.getLast?_eq_getLast _ hne
    rw [get_current_interval_of_getLast S a b _ hl]
    show trendOf _ = "unknown"
    rw [trendOf, if_neg (not_le.2 hlen)]
  · have hne : calculate_interval_history S a b ≠ [] := by
      intro h0
      rw [h0] at hm
      cases hm
    have hl := List.getLast?_eq_getLast _ hne
    rw [get_current_interval_of_getLast S a b _ hl]
    show trendOf _ = _
    rw [trendOf_eq_specTrendClass _ (by omega)]
    have hn' : (mergedPairs S a b).length = m + 4 := by
      rw [← history_length_eq]
      exact hm
    rw [nanMean_tail3_of_add_four S a b m hn']
    simp only [intervalAtIdx, history_map_interval]
  · have hne : calculate_interval_history S a b ≠ [] := by
      intro h0
      rw [h0] at hm
      cases hm
    have hl := List.getLast?_eq_getLast _ hne
    rw [get_current_interval_of_getLast S a b _ hl]
    show trendOf _ = _
    rw [trendOf_eq_specTrendClass _ (by omega)]
    have hn' : (mergedPairs S a b).length = 3 := by
      rw [← history_length_eq]
      exact hm
    rw [nanMean_tail3_of_three S a b hn']
    simp only [intervalAtIdx, history_map_interval]
  · norm_num [specTrendClass]
  · norm_num [specTrendClass]
  · norm_num [specTrendClass]

/-- Witness for C4: the empty store yields the sentinel, and the
two-sample store yields trend `unknown`. -/
theorem C4_witness :
    calculate_interval_history emptyStore 1 2 = [] ∧
    get_current_interval emptyStore 1 2 =
      { current_interval := none, lap := 0, trend := "unknown"
        closing_rate := 0, position_d1 := 0, position_d2 := 0 } ∧
    calculate_interval_history storeTwoByTwo 1 2 ≠ [] ∧
    (calculate_interval_history storeTwoByTwo 1 2).length < 3 ∧
    (get_current_interval storeTwoByTwo 1 2).trend = "unknown" :=
  ⟨by decide, (C4_current_snapshot emptyStore 1 2).1 (by decide), by decide,
   by decide,
   (C4_current_snapshot storeTwoByTwo 1 2).2.2.1 (by decide) (by decide)⟩

/-! ### Lemmas and theorem for event detection -/

theorem consecPairs_map_snd {α : Type} (l : List α) :
    (consecPairs l).map Prod.snd = l.tail := by
  match l with
  | [] => rfl
  | [a] => rfl
  | a :: b :: rest =>
      rw [consecPairs, List.map_cons]
      have ih := consecPairs_map_snd (b :: rest)
      rw [ih]
      rfl

theorem consecPairs_eq_nil_of_short {α : Type} (l : List α)
    (h : l.length < 2) : consecPairs l = [] := by
  match l with
  | [] => rfl
  | [a] => rfl
  | a :: b :: rest => simp only [List.length_cons] at h; omega

/-- Mapping `h` over a `filterMap` result is a sublist of mapping `h'`
over the input, when `g x = some y` forces `h y = h' x`. -/
theorem filterMap_map_sublist {α β γ : Type} (l : List α) (g : α → Option β)
    (h : β → γ) (h' : α → γ) (hg : ∀ x y, g x = some y → h y = h' x) :
    ((l.filterMap g).map h).Sublist (l.map h') := by
  induction l with
  | nil => simp
  | cons x xs ih =>
    rw [List.filterMap_cons, List.map_cons]
    cases hx : g x with
    | none => exact ih.cons (h' x)
    | some y =>
        rw [List.map_cons, hg x y hx]
        exact ih.cons₂ (h' x)

/-- C7: `detect_events` returns `[]` whenever the average lap time is
unavailable; with average `v` it flags exactly the consecutive
(sorted-by-lap) deltas exceeding `v + 30`, reporting a `pit_stop` event on
the later row's lap with duration `delta − v`; event laps are in ascending
order. -/
theorem C7_detect_pit_stops (S : TimingStore) (d : Int) :
    (get_average_lap_time S d = none → detect_events S d = []) ∧
    (∀ v : ℚ, get_average_lap_time S d = some v →
      (∀ e ∈ detect_events S d, e.type = "pit_stop" ∧
        ∃ p ∈ consecPairs (sortByLap (driverLaps S d)),
          e.lap = p.2.lap_number ∧
          v + 30 < p.2.date_start - p.1.date_start ∧
          e.duration = (p.2.date_start - p.1.date_start) - v) ∧
      (∀ p ∈ consecPairs (sortByLap (driverLaps S d)),
        v + 30 < p.2.date_start - p.1.date_start →
          (⟨"pit_stop", p.2.lap_number, (p.2.date_start - p.1.date_start) - v⟩ :
            Event) ∈ detect_events S d)) ∧
    List.Sorted (· ≤ ·) ((detect_events S d).map (fun e => e.lap)) := by
  have hsortlen : (sortByLap (driverLaps S d)).length = (driverLaps S d).length :=
    (List.perm_insertionSort lapLE (driverLaps S d)).length_eq
  refine ⟨fun havg => ?_, fun v havg => ⟨fun e he => ?_, fun p hp hcond => ?_⟩, ?_⟩
  · rw [detect_events]
    by_cases hlen : (driverLaps S d).length < 2
    · rw [if_pos hlen]
    · rw [if_neg hlen]
      simp [havg]
  · rw [detect_events] at he
    by_cases hlen : (driverLaps S d).length < 2
    · rw [if_pos hlen] at he
      cases he
    · rw [if_neg hlen] at he
      rcases List.mem_filterMap.1 he with ⟨p, hp, hgp⟩
      rw [havg] at hgp
      dsimp only at hgp
      by_cases hc : v ≠ 0 ∧ v + 30 < p.2.date_start - p.1.date_start
      · rw [if_pos hc] at hgp
        injection hgp with hgp
        subst hgp
        exact ⟨rfl, p, hp, rfl, hc.2, rfl⟩
      · rw [if_neg hc] at hgp
        cases hgp
  · have hvne : v ≠ 0 := by
      have hv := get_average_lap_time_pos S d v havg
      intro h0
      rw [h0] at hv
      norm_num at hv
    rw [detect_events]
    have hlen : ¬ (driverLaps S d).length < 2 := by
      intro hlt
      rw [consecPairs_eq_nil_of_short _ (by omega : (sortByLap (driverLaps S d)).length < 2)] at hp
      cases hp
    rw [if_neg hlen]
    refine List.mem_filterMap.2 ⟨p, hp, ?_⟩
    rw [havg]
    dsimp only
    rw [if_pos ⟨hvne, hcond⟩]
  · rw [detect_events]
    by_cases hlen : (driverLaps S d).length < 2
    · rw [if_pos hlen]
      exact List.sorted_nil
    · rw [if_neg hlen]
      have hsorted : List.Sorted lapLE (sortByLap (driverLaps S d)) :=
        List.sorted_insertionSort lapLE (driverLaps S d)
      have hmaplap : List.Sorted (· ≤ ·)
          ((sortByLap (driverLaps S d)).map (fun r => r.lap_number)) :=
        List.Pairwise.map _ (fun {x y} (hxy : lapLE x y) => hxy) hsorted
      have hsub : (((consecPairs (sortByLap (driverLaps S d))).filterMap
          (fun p =>
            match get_average_lap_time S d with
            | some avg =>
                if avg ≠ 0 ∧ avg + 30 < p.2.date_start - p.1.date_start then
                  some (⟨"pit_stop", p.2.lap_number,
                    (p.2.date_start - p.1.date_start) - avg⟩ : Event)
                else none
            | none => none)).map (fun e => e.lap)).Sublist
          ((consecPairs (sortByLap (driverLaps S d))).map
            (fun p => p.2.lap_number)) := by
        refine filterMap_map_sublist _ _ _ _ ?_
        intro p e hpe
        cases havg : get_average_lap_time S d with
        | none => rw [havg] at hpe; cases hpe
        | some v =>
            rw [havg] at hpe
            dsimp only at hpe
            by_cases hc : v ≠ 0 ∧ v + 30 < p.2.date_start - p.1.date_start
            · rw [if_pos hc] at hpe
              injection hpe with hpe
              rw [← hpe]
            · rw [if_neg hc] at hpe
              cases hpe
      have htail : ((consecPairs (sortByLap (driverLaps S d))).map
          (fun p => p.2.lap_number)) =
          ((sortByLap (driverLaps S d)).tail).map (fun r => r.lap_number) := by
        rw [← consecPairs_map_snd, List.map_map]
        rfl
      have hsorted2 : List.Sorted (· ≤ ·)
          ((consecPairs (sortByLap (driverLaps S d))).map
            (fun p => p.2.lap_number)) := by
        rw [htail]
        exact hmaplap.sublist ((List.tail_sublist _).map _)
      exact hsorted2.sublist hsub

/-- Witness for C7 at the pit-stop store: the 228 s delta on lap 4 is
flagged with duration 138. -/
theorem C7_witness :
    get_average_lap_time storePit 3 = some 90 ∧
    (mkRow 3 3 92 1, mkRow 3 4 320 1) ∈
      consecPairs (sortByLap (driverLaps storePit 3)) ∧
    (90 : ℚ) + 30 < 320 - 92 ∧
    (⟨"pit_stop", 4, (320 - 92 : ℚ) - 90⟩ : Event) ∈ detect_events storePit 3 := by
  have havg : get_average_lap_time storePit 3 = some 90 := by
    norm_num [get_average_lap_time, driverLaps, storePit, mkRow, sortByLap,
      List.insertionSort, List.orderedInsert, lapLE, lapDeltas, consecPairs]
    exact fun h => List.noConfusion h
  refine ⟨havg, by decide, by norm_num, ?_⟩
  exact ((C7_detect_pit_stops storePit 3).2.1 90 havg).2
    (mkRow 3 3 92 1, mkRow 3 4 320 1) (by decide) (by norm_num [mkRow])

/-! ### Lemmas and theorem for the interval-history series (C1) -/

theorem filter_lap_eq_nil (l : List LapRecord) (L : Int)
    (h : ∀ r ∈ l, r.lap_number ≠ L) :
    l.filter (fun r => r.lap_number = L) = [] :=
  List.filter_eq_nil_iff.2 (fun r hr => by simpa using h r hr)

theorem filter_lap_singleton (l : List LapRecord)
    (hnodup : (l.map (fun r => r.lap_number)).Nodup) (r : LapRecord)
    (hr : r ∈ l) :
    l.filter (fun s => s.lap_number = r.lap_number) = [r] := by
  induction l with
  | nil => cases hr
  | cons x xs ih =>
    rw [List.map_cons, List.nodup_cons] at hnodup
    rcases List.mem_cons.1 hr with rfl | hrx
    · rw [List.filter_cons_of_pos (by simp)]
      rw [filter_lap_eq_nil xs r.lap_number
        (fun s hs he => hnodup.1 (he ▸ List.mem_map_of_mem _ hs))]
    · have hne : ¬ (x.lap_number = r.lap_number : Prop) := fun he =>
        hnodup.1 (he ▸ List.mem_map_of_mem _ hrx)
      rw [List.filter_cons_of_neg (by simpa using hne)]
      exact ih hnodup.2 hrx

theorem length_filter_lap_le_one (l : List LapRecord)
    (hnodup : (l.map (fun r => r.lap_number)).Nodup) (L : Int) :
    (l.filter (fun r => r.lap_number = L)).length ≤ 1 := by
  induction l with
  | nil => simp
  | cons x xs ih =>
    rw [List.map_cons, List.nodup_cons] at hnodup
    by_cases hx : x.lap_number = L
    · rw [List.filter_cons_of_pos (by simpa using hx)]
      rw [filter_lap_eq_nil xs L
        (fun s hs he => hnodup.1 ((hx ▸ he : s.lap_number = x.lap_number) ▸
          List.mem_map_of_mem _ hs))]
      simp
    · rw [List.filter_cons_of_neg (by simpa using hx)]
      exact ih hnodup.2

/-- With the left rows strictly ascending in lap number and the right
keys duplicate-free, the join's (left) lap column is strictly ascending. -/
theorem innerJoin_fstLap_sorted (l1 l2 : List LapRecord)
    (h1 : List.Sorted (· < ·) (l1.map (fun r => r.lap_number)))
    (h2 : (l2.map (fun r => r.lap_number)).Nodup) :
    List.Sorted (· < ·)
      ((innerJoin l1 l2).map (fun p => p.1.lap_number)) := by
  induction l1 with
  | nil => simp [innerJoin]
  | cons x xs ih =>
    rw [List.map_cons] at h1
    have hx := List.sorted_cons.1 h1
    rw [innerJoin, List.flatMap_cons, List.map_append]
    rw [List.Sorted, List.pairwise_append]
    refine ⟨?_, ih hx.2, ?_⟩
    · have hlen := length_filter_lap_le_one l2 h2 x.lap_number
      rcases hfil : l2.filter (fun r => r.lap_number = x.lap_number) with _ | ⟨r1, rest⟩
      · rw [hfil]
        simp
      · rw [hfil, List.length_cons] at hlen
        have : rest = [] := List.length_eq_zero.1 (by omega)
        subst this
        rw [hfil]
        simp
    · intro u hu w hw
      rcases List.mem_map.1 hu with ⟨q, hq, rfl⟩
      rcases List.mem_map.1 hq with ⟨r2, _, rfl⟩
      rcases List.mem_map.1 hw with ⟨p, hp, rfl⟩
      have hp1 : p.1 ∈ xs := ((mem_innerJoin xs l2 p).1 hp).1
      exact hx.1 p.1.lap_number (List.mem_map_of_mem _ hp1)

/-- The lap column of the join contains exactly the laps present on both
sides. -/
theorem innerJoin_fstLap_mem (l1 l2 : List LapRecord) (L : Int) :
    L ∈ (innerJoin l1 l2).map (fun p => p.1.lap_number) ↔
      (L ∈ l1.map (fun r => r.lap_number)) ∧
      (L ∈ l2.map (fun r => r.lap_number)) := by
  constructor
  · intro h
    rcases List.mem_map.1 h with ⟨p, hp, rfl⟩
    rcases (mem_innerJoin l1 l2 p).1 hp with ⟨hp1, hp2, hlap⟩
    exact ⟨List.mem_map_of_mem _ hp1, hlap ▸ List.mem_map_of_mem _ hp2⟩
  · rintro ⟨hL1, hL2⟩
    rcases List.mem_map.1 hL1 with ⟨r1, hr1, rfl⟩
    rcases List.mem_map.1 hL2 with ⟨r2, hr2, hlap⟩
    exact List.mem_map.2 ⟨(r1, r2),
      (mem_innerJoin l1 l2 (r1, r2)).2 ⟨hr1, hr2, hlap⟩, rfl⟩

/-- `crossing_time` restated through the per-driver frame. -/
theorem crossing_time_eq_head (S : TimingStore) (d L : Int) :
    crossing_time S d L =
      (((driverLaps S d).filter (fun r => r.lap_number = L)).head?).map
        (fun r => r.date_start) := by
  rw [crossing_time, driverLaps, List.filter_filter]
  congr 2
  refine List.filter_congr (fun r _ => ?_)
  simp [Bool.decide_and, Bool.and_comm]

theorem history_map_lap (S : TimingStore) (a b : Int) :
    (calculate_interval_history S a b).map (fun s => s.lap_number) =
      (mergedPairs S a b).map (fun p => p.1.lap_number) :=
  buildSamples_map_lap _ 0 _

theorem intervalAtIdx_eq (S : TimingStore) (a b : Int) (j : Nat) :
    intervalAtIdx S a b j = ((mergedPairs S a b).map pairInterval).getD j 0 := by
  rw [intervalAtIdx, history_map_interval]

/-- C1 amended: under the store invariant that competitor `a`'s rows are
stored in strictly ascending lap order (laps ingested in order) and `b`'s
lap numbers are duplicate-free, `calculate_interval_history` produces one
sample per lap present in BOTH competitors' records (inner join), ordered
by ascending lap number, with `interval = crossing_time(b, lap) −
crossing_time(a, lap)`, `interval_change[i] = interval[i] − interval[i−1]`
(absent at i = 0) and `closing_rate[i]` the mean of the last three deltas
(absent until i = 3).  Without the ordering hypothesis the series follows
`a`'s row order (`C1_counterexample`). -/
theorem C1_interval_series (S : TimingStore) (a b : Int)
    (hsorted : List.Sorted (· < ·)
      ((driverLaps S a).map (fun r => r.lap_number)))
    (hnodup : ((driverLaps S b).map (fun r => r.lap_number)).Nodup) :
    List.Sorted (· < ·)
      ((calculate_interval_history S a b).map (fun s => s.lap_number)) ∧
    (∀ L : Int,
      L ∈ (calculate_interval_history S a b).map (fun s => s.lap_number) ↔
      (L ∈ (driverLaps S a).map (fun r => r.lap_number) ∧
       L ∈ (driverLaps S b).map (fun r => r.lap_number))) ∧
    (∀ s ∈ calculate_interval_history S a b, ∃ ta tb : ℚ,
      crossing_time S a s.lap_number = some ta ∧
      crossing_time S b s.lap_number = some tb ∧
      s.interval = tb - ta) ∧
    (∀ i : Nat, ∀ hi : i < (calculate_interval_history S a b).length,
      ((calculate_interval_history S a b).get ⟨i, hi⟩).interval_change =
        if i = 0 then none
        else some (intervalAtIdx S a b i - intervalAtIdx S a b (i - 1))) ∧
    (∀ i : Nat, ∀ hi : i < (calculate_interval_history S a b).length,
      ((calculate_interval_history S a b).get ⟨i, hi⟩).closing_rate =
        if 3 ≤ i then
          some (((intervalAtIdx S a b (i - 2) - intervalAtIdx S a b (i - 3)) +
                 (intervalAtIdx S a b (i - 1) - intervalAtIdx S a b (i - 2)) +
                 (intervalAtIdx S a b i - intervalAtIdx S a b (i - 1))) / 3)
        else none) := by
  have hnodupa : ((driverLaps S a).map (fun r => r.lap_number)).Nodup :=
    hsorted.nodup
  have hivlen : ((mergedPairs S a b).map pairInterval).length =
      (mergedPairs S a b).length := List.length_map _ _
  refine ⟨?_, fun L => ?_, fun s hs => ?_, fun i hi => ?_, fun i hi => ?_⟩
  · rw [history_map_lap]
    exact innerJoin_fstLap_sorted _ _ hsorted hnodup
  · rw [history_map_lap]
    exact innerJoin_fstLap_mem _ _ L
  · simp only [calculate_interval_history] at hs
    rcases (mem_buildSamples _ 0 _ s).1 hs with ⟨j, p, hp, rfl⟩
    have hpm : p ∈ mergedPairs S a b := List.mem_iff_getElem?.2 ⟨j, hp⟩
    rcases (mem_innerJoin _ _ p).1 hpm with ⟨h1, h2, hlap⟩
    refine ⟨p.1.date_start, p.2.date_start, ?_, ?_, ?_⟩
    · show crossing_time S a p.1.lap_number = some p.1.date_start
      rw [crossing_time_eq_head,
        filter_lap_singleton (driverLaps S a) hnodupa p.1 h1]
      rfl
    · show crossing_time S b p.1.lap_number = some p.2.date_start
      rw [crossing_time_eq_head, ← hlap,
        filter_lap_singleton (driverLaps S b) hnodup p.2 h2]
      rfl
    · show pairInterval p = p.2.date_start - p.1.date_start
      rfl
  · have h1 : (calculate_interval_history S a b)[i]? =
        some ((calculate_interval_history S a b).get ⟨i, hi⟩) := by
      rw [List.getElem?_eq_getElem hi]
      rfl
    rw [history_getElem?] at h1
    rcases Option.map_eq_some'.1 h1 with ⟨p, hpi, hmk⟩
    rw [← hmk]
    show diffAt ((mergedPairs S a b).map pairInterval) i = _
    by_cases h0 : i = 0
    · rw [if_pos h0, h0, diffAt_zero]
    · rw [if_neg h0]
      have hilen : i < ((mergedPairs S a b).map pairInterval).length := by
        rw [hivlen, ← history_length_eq]
        exact hi
      rw [diffAt_eq_some _ i (by omega) hilen, intervalAtIdx_eq,
        intervalAtIdx_eq]
  · have h1 : (calculate_interval_history S a b)[i]? =
        some ((calculate_interval_history S a b).get ⟨i, hi⟩) := by
      rw [List.getElem?_eq_getElem hi]
      rfl
    rw [history_getElem?] at h1
    rcases Option.map_eq_some'.1 h1 with ⟨p, hpi, hmk⟩
    rw [← hmk]
    show rollingAt ((mergedPairs S a b).map pairInterval) i = _
    by_cases h3 : 3 ≤ i
    · rw [if_pos h3]
      have hilen : i < ((mergedPairs S a b).map pairInterval).length := by
        rw [hivlen, ← history_length_eq]
        exact hi
      rw [rollingAt_eq_some _ i h3 hilen, intervalAtIdx_eq, intervalAtIdx_eq,
        intervalAtIdx_eq, intervalAtIdx_eq]
    · rw [if_neg h3, rollingAt_eq_none _ i (by omega)]

/-- Witness for C1 at the ascending store. -/
theorem C1_witness :
    List.Sorted (· < ·) ((driverLaps storeAsc 1).map (fun r => r.lap_number)) ∧
    ((driverLaps storeAsc 2).map (fun r => r.lap_number)).Nodup ∧
    List.Sorted (· < ·)
      ((calculate_interval_history storeAsc 1 2).map (fun s => s.lap_number)) :=
  ⟨by decide, by decide,
   (C1_interval_series storeAsc 1 2 (by decide) (by decide)).1⟩

end F1
